import Mathlib

/-!
Verification development for the exchange API tester
(`src/scripts/exchange_api_tester.py`).

The script probes cryptocurrency exchange ticker endpoints, collects one
`TestResult` per request, aggregates per-exchange statistics, and renders a
report with a recommendation.  This file shallowly embeds the data model and
the operations of that script:

* JSON payloads are modelled by the inductive `Json` (a parsed Python value:
  dict / list / str / int / bool / None).  Keys of a parsed JSON object are
  distinct, as in a Python `dict`.
* Wall-clock measurements (Python floats) are modelled by `Rat`.  The two
  latency measurements an invocation can take (at the response header, line
  69-70, and inside the generic exception handler, line 108) are inputs of
  the model (`Network.headerElapsed`, `Network.exnElapsed`).
* The behaviour of the single HTTP GET a probe performs is an input of the
  model (`Network.outcome`): a status/body/text response, a timeout, or a
  raised transport/runtime exception.  A body that fails to parse as JSON is
  a `response` whose body is `Except.error (exceptionName, message)`, since
  `await response.json()` raises inside the `try` block.
* A Python exception that escapes a function is modelled by `Except.error`
  carrying the exception type name; a normal return is `Except.ok`.
* `asyncio.gather` is modelled in two stages: `runConcurrent` lets the
  tasks complete in an arbitrary order (a permutation of the task indices),
  each completion writing only its own result slot, and the slots are read
  out in input order; `gatherPropagate` then applies the default
  `return_exceptions=False` semantics — if any task raised, the exception
  propagates to the awaiting caller and no result list is returned.
* The numeric text formatting of the report (Python `:.1f`) is abstracted by
  the canonical rendering of a rational; no claim depends on the digits.
-/

/-- A parsed JSON value as produced by Python `response.json()`:
`obj` is a `dict` (distinct keys), `arr` a `list`, `num` a JSON integer,
`bool` a Python `True`/`False`, `null` is `None`. -/
inductive Json where
  | obj (fields : List (String × Json))
  | arr (elems : List Json)
  | str (s : String)
  | num (n : Int)
  | bool (b : Bool)
  | null

/-- `isinstance(data, dict)`. -/
def Json.isObj : Json → Bool
  | .obj _ => true
  | _ => false

/-- Python `data.get(k)` on a parsed JSON object (`none` for a missing key,
and for any non-dict value). -/
def Json.get? : Json → String → Option Json
  | .obj fields, k => (fields.find? (fun p => p.1 == k)).map Prod.snd
  | _, _ => none

/-- Python `k in data` membership on a dict. -/
def Json.hasKey (j : Json) (k : String) : Bool :=
  (j.get? k).isSome

/-- True exactly on JSON objects and arrays (the values on which
`validate_data` checks non-emptiness). -/
def Json.isContainer : Json → Bool
  | .obj _ => true
  | .arr _ => true
  | _ => false

mutual

/-- Python `repr` of a parsed JSON value (used inside containers by
`str(data)`). -/
def pyRepr : Json → String
  | Json.obj fields => "\x7b" ++ String.intercalate ", " (pyReprFields fields) ++ "\x7d"
  | Json.arr elems => "[" ++ String.intercalate ", " (pyReprElems elems) ++ "]"
  | Json.str s => "\x27" ++ s ++ "\x27"
  | Json.num n => toString n
  | Json.bool b => if b then "True" else "False"
  | Json.null => "None"

/-- `repr` of the key/value pairs of a dict. -/
def pyReprFields : List (String × Json) → List String
  | [] => []
  | (k, v) :: rest => ("\x27" ++ k ++ "\x27: " ++ pyRepr v) :: pyReprFields rest

/-- `repr` of the elements of a list. -/
def pyReprElems : List Json → List String
  | [] => []
  | v :: rest => pyRepr v :: pyReprElems rest

end

/-- Python `str(data)` for a parsed JSON value (a top-level string prints
without quotes, everything else as its `repr`). -/
def pyStr : Json → String
  | Json.str s => s
  | j => pyRepr j

/-- The result dataclass `TestResult` (line 18-30).  The `timestamp` field
(wall-clock metadata set in `__post_init__` and read by no logic) is
omitted.  Every construction site in the source passes `error_type`
explicitly. -/
structure TestResult where
  exchange : String
  success : Bool
  response_time : Rat
  data_size : Nat
  error_type : String
deriving DecidableEq

/-- One entry of the exchange configuration table (lines 234-275): a
`base_url`, an endpoint-name → path dict, and a query-parameter dict. -/
structure ExchangeConfig where
  base_url : String
  endpoints : List (String × String)
  params : List (String × String)
deriving DecidableEq

/-- Python dict indexing/membership for the string-keyed dicts of the
script (keys are distinct, so the first match is the only match). -/
def lookupKey {β : Type} (l : List (String × β)) (k : String) : Option β :=
  (l.find? (fun p => p.1 == k)).map Prod.snd

/-- What the single HTTP GET of one probe invocation did:
`response status body errorText` is a completed response (`body` is
`Except.error (name, msg)` when `await response.json()` raises, and
`errorText` is what `await response.text()` yields on the non-200 path);
`timeout` is `asyncio.TimeoutError`; `raise name msg` is any other
exception raised by the request. -/
inductive NetOutcome where
  | response (status : Nat) (body : Except (String × String) Json) (errorText : String)
  | timeout
  | raise (ename : String) (emsg : String)

/-- The environment of one probe invocation: the request outcome plus the
two latency measurements the code can take (`end_time - start_time` at line
69-70, and `time.time() - start_time` inside the generic handler at line
108). -/
structure Network where
  outcome : NetOutcome
  headerElapsed : Rat
  exnElapsed : Rat

/-- `aiohttp.ClientTimeout(total=15)` configured in `__aenter__`
(line 42-44). -/
def sessionTimeout : Rat := 15

/-- `ExchangeAPITester.validate_data` (lines 113-128), branch for branch:
exchange-specific field checks for binance / bitget / pionex
(`data.get('result') is True` is identity with the boolean `True`),
non-emptiness for every other dict or list, and `True` for any other
value. -/
def validate_data (exchange : String) (data : Json) : Bool :=
  if exchange == "binance" then
    data.isObj && data.hasKey "symbol" && data.hasKey "lastPrice"
  else if exchange == "bitget" then
    data.isObj && (match data.get? "code" with
      | some (Json.str s) => s == "00000"
      | _ => false)
  else if exchange == "pionex" then
    data.isObj && (match data.get? "result" with
      | some (Json.bool b) => b
      | _ => false)
  else match data with
    | Json.obj fields => decide (fields.length > 0)
    | Json.arr elems => decide (elems.length > 0)
    | _ => true

/-- `ExchangeAPITester.test_single_endpoint` (lines 51-111).  The returned
`Except.error` models a Python exception escaping to the caller: the lookup
`config['endpoints'][endpoint]` on line 63 happens before the `try` block,
so an endpoint name missing from the table raises `KeyError`.  Everything
from the `session.get` onwards sits inside `try`/`except`, so a non-200
status, a JSON parse failure, a timeout, or any other request exception is
converted into a failed `TestResult`. -/
def test_single_endpoint (configs : List (String × ExchangeConfig))
    (exchange endpoint : String) (net : Network) : Except String TestResult :=
  match lookupKey configs exchange with
  | none =>
      Except.ok { exchange := exchange, success := false, response_time := 0,
                  data_size := 0, error_type := "配置不存在" }
  | some config =>
      match lookupKey config.endpoints endpoint with
      | none => Except.error "KeyError"
      | some path =>
          let _url := config.base_url ++ path
          let _params := config.params
          match net.outcome with
          | NetOutcome.response status body errorText =>
              if status == 200 then
                match body with
                | Except.ok data =>
                    let data_size := (pyStr data).length
                    let is_valid := validate_data exchange data
                    Except.ok { exchange := exchange, success := is_valid,
                                response_time := net.headerElapsed,
                                data_size := data_size,
                                error_type := if is_valid then "" else "數據不完整" }
                | Except.error e =>
                    Except.ok { exchange := exchange, success := false,
                                response_time := net.exnElapsed, data_size := 0,
                                error_type := e.1 ++ ": " ++ e.2.take 50 }
              else
                Except.ok { exchange := exchange, success := false,
                            response_time := net.headerElapsed, data_size := 0,
                            error_type := "HTTP " ++ toString status ++ ": " ++ errorText.take 50 }
          | NetOutcome.timeout =>
              Except.ok { exchange := exchange, success := false,
                          response_time := 15, data_size := 0,
                          error_type := "Timeout" }
          | NetOutcome.raise ename emsg =>
              Except.ok { exchange := exchange, success := false,
                          response_time := net.exnElapsed, data_size := 0,
                          error_type := ename ++ ": " ++ emsg.take 50 }

/-- An invocation environment in which the probe hit one of the error
conditions of the script (non-200 status, JSON parse failure, timeout, or
another request exception) — the cases the spec requires to be downgraded
to a failed result. -/
def NetOutcome.isFailureCase : NetOutcome → Bool
  | .response status body _ =>
      (status != 200) || (match body with | Except.ok _ => false | Except.error _ => true)
  | .timeout => true
  | .raise _ _ => true

/-- `EXCHANGE_CONFIGS` (lines 234-275). -/
def EXCHANGE_CONFIGS : List (String × ExchangeConfig) :=
  [("binance",
    { base_url := "https://api.binance.com",
      endpoints := [("ticker", "/api/v3/ticker/24hr")],
      params := [("symbol", "BTCUSDT")] }),
   ("kucoin",
    { base_url := "https://api.kucoin.com",
      endpoints := [("ticker", "/api/v1/market/orderbook/level1")],
      params := [("symbol", "BTC-USDT")] }),
   ("gateio",
    { base_url := "https://api.gateio.ws/api/v4",
      endpoints := [("ticker", "/spot/tickers")],
      params := [("currency_pair", "BTC_USDT")] }),
   ("mexc",
    { base_url := "https://api.mexc.com",
      endpoints := [("ticker", "/api/v3/ticker/24hr")],
      params := [("symbol", "BTCUSDT")] }),
   ("huobi",
    { base_url := "https://api.huobi.pro",
      endpoints := [("ticker", "/market/detail/merged")],
      params := [("symbol", "btcusdt")] }),
   ("bitget",
    { base_url := "https://api.bitget.com",
      endpoints := [("ticker", "/api/spot/v1/market/ticker")],
      params := [("symbol", "BTCUSDT")] }),
   ("okx",
    { base_url := "https://www.okx.com/api/v5",
      endpoints := [("ticker", "/market/ticker")],
      params := [("instId", "BTC-USDT")] }),
   ("pionex",
    { base_url := "https://api.pionex.com",
      endpoints := [("ticker", "/api/v1/market/ticker")],
      params := [("symbol", "BTC_USDT")] })]

/-- One task completion inside `asyncio.gather`: the task with index `i`
writes its value into its own result slot (and only that slot). -/
def writeSlot {α : Type} (tasks : List α) (slots : List (Option α)) (i : Nat) :
    List (Option α) :=
  match tasks.get? i with
  | some v => slots.set i (some v)
  | none => slots

/-- Read out the result slots in input order once the event loop is done
(`some` exactly when every slot was filled). -/
def collectSlots {α : Type} : List (Option α) → Option (List α)
  | [] => some []
  | none :: _ => none
  | some v :: rest => (collectSlots rest).map (fun l => v :: l)

/-- `asyncio.gather(*tasks)` under a cooperative event loop: the tasks
complete in the order given by `order` (a permutation of the task indices),
each completion fills only its own slot, and the slots are read out in
input order.  `none` models a completion order that never finishes some
task (impossible for a permutation, as proved below). -/
def runConcurrent {α : Type} (tasks : List α) (order : List Nat) : Option (List α) :=
  collectSlots (order.foldl (writeSlot tasks) (List.replicate tasks.length none))

/-- The await of `asyncio.gather(*tasks)` with the default
`return_exceptions=False`: if every task returned, the list of their
results in input order; if some task raised, that exception propagates to
the awaiting caller and no results are returned.  (In this program a task
raises exactly when the endpoint lookup of line 63 fails, which hits every
task of a batch identically — the tasks differ only in their request
environment — so which raising task gather re-raises first is
immaterial.) -/
def gatherPropagate : List (Except String TestResult) → Except String (List TestResult)
  | [] => Except.ok []
  | Except.ok r :: rest => (gatherPropagate rest).map (fun l => r :: l)
  | Except.error e :: _ => Except.error e

/-- `ExchangeAPITester.run_concurrent_tests` (lines 130-135): build
`num_requests` identical probe coroutines (the `i`-th runs in the request
environment `nets i`) and gather them; an exception raised by a task
propagates out of the `await asyncio.gather` (the outer `Except`), and
otherwise the results come back in input order.  The Python default for
`num_requests` is 3, and `test_all_exchanges` passes 3 explicitly. -/
def run_concurrent_tests (configs : List (String × ExchangeConfig))
    (exchange endpoint : String) (nets : Nat → Network) (order : List Nat)
    (num_requests : Nat) : Option (Except String (List TestResult)) :=
  (runConcurrent
    ((List.range num_requests).map
      (fun i => test_single_endpoint configs exchange endpoint (nets i)))
    order).map gatherPropagate

/-- The per-exchange statistics dict built by `test_all_exchanges`
(lines 159-167). -/
structure ExchangeSummary where
  success_rate : Rat
  avg_response_time : Rat
  min_response_time : Rat
  max_response_time : Rat
  total_requests : Nat
  successful_requests : Nat
  errors : List String
deriving DecidableEq

/-- Lines 150-157: `statistics.mean`, `min` and `max` over the response
times of the successful results when there are any, else all three zero. -/
def latencyStats : List Rat → Rat × Rat × Rat
  | [] => (0, 0, 0)
  | t :: ts =>
      ((t :: ts).sum / ((t :: ts).length : Rat), ts.foldl min t, ts.foldl max t)

/-- The statistics block of `ExchangeAPITester.test_all_exchanges`
(lines 147-167) as a function of the gathered results of one exchange.
`total_requests` is the literal 3 of line 164.  The call site always
passes 3 results, so the `len(results)` divisor is never zero there;
`Rat` division by zero would yield 0. -/
def computeSummary (results : List TestResult) : ExchangeSummary :=
  let successful := results.filter (fun r => r.success)
  let stats := latencyStats (successful.map (fun r => r.response_time))
  { success_rate := (successful.length : Rat) / (results.length : Rat) * 100,
    avg_response_time := stats.1,
    min_response_time := stats.2.1,
    max_response_time := stats.2.2,
    total_requests := 3,
    successful_requests := successful.length,
    errors := (results.filter (fun r => !r.success)).map (fun r => r.error_type) }

/-- The sort key of the recommendation (line 224):
`(x[1]['success_rate'], -x[1]['avg_response_time'])`, compared the way
Python compares tuples — lexicographically. -/
def recKey (kv : String × ExchangeSummary) : Lex (Rat × Rat) :=
  toLex (kv.2.success_rate, -kv.2.avg_response_time)

/-- One step of Python `max(..., key=f)`: the running best is replaced
exactly when the new key is strictly greater. -/
def maxStep {α K : Type} [LinearOrder K] (key : α → K) (best y : α) : α :=
  if key best < key y then y else best

/-- Python `max(iterable, key=f)`: `none` on an empty iterable (where
Python raises `ValueError`; the caller guards this case), otherwise the
first element whose key is maximal. -/
def pyMaxBy {α K : Type} [LinearOrder K] (key : α → K) : List α → Option α
  | [] => none
  | x :: xs => some (xs.foldl (maxStep key) x)

/-- The recommendation of `ExchangeAPITester.generate_report`
(lines 221-224): among the summary entries with `success_rate > 0` (in
dict insertion order, i.e. input order), the `max` by
`(success_rate, -avg_response_time)`. -/
def generate_recommendation (summaries : List (String × ExchangeSummary)) :
    Option (String × ExchangeSummary) :=
  pyMaxBy recKey (summaries.filter (fun kv => decide (0 < kv.2.success_rate)))

/-- Modelled from the amended claim: the recommendation is the first entry
with `success_rate > 0` whose pair `(success_rate, -avg_response_time)` is
lexicographically maximal among such entries; `none` when no entry has a
positive success rate.  Stated independently of the source to be compared
with `generate_recommendation`. -/
def recommendAmended (summaries : List (String × ExchangeSummary)) :
    Option (String × ExchangeSummary) :=
  let succ := summaries.filter (fun kv => decide (0 < kv.2.success_rate))
  succ.find? (fun kv => succ.all (fun other => decide (recKey other ≤ recKey kv)))

/-- The final recommendation-or-notice line of the report (lines 221-227):
the recommendation line when some exchange succeeded, otherwise the
all-failed notice.  The `:.1f` rendering of the rate is abstracted by the
canonical rational rendering. -/
def reportTail (summaries : List (String × ExchangeSummary)) : String :=
  match generate_recommendation summaries with
  | some best => "🎯 推薦使用: " ++ best.1 ++ " (成功率: " ++ toString best.2.success_rate ++ "%)"
  | none => "⚠️ 所有交易所測試均失敗，請檢查網絡或API配置"

/-- A request environment that times out (used by concrete instantiations). -/
def netTimeout : Network :=
  { outcome := NetOutcome.timeout, headerElapsed := 0, exnElapsed := 0 }

/-- A request environment answering HTTP 500 (used by concrete
instantiations). -/
def net500 : Network :=
  { outcome := NetOutcome.response 500 (Except.error ("ContentTypeError", ""))
      "Internal Server Error",
    headerElapsed := 1, exnElapsed := 1 }

/-- A request environment answering HTTP 200 with the scalar JSON body
"hello" (used by concrete instantiations). -/
def netScalar : Network :=
  { outcome := NetOutcome.response 200 (Except.ok (Json.str "hello")) "",
    headerElapsed := 1, exnElapsed := 1 }

/-- A request environment answering HTTP 200 with a non-empty JSON object
lacking the binance-specific fields (used by concrete instantiations). -/
def netFooObj : Network :=
  { outcome := NetOutcome.response 200 (Except.ok (Json.obj [("foo", Json.num 1)])) "",
    headerElapsed := 1, exnElapsed := 1 }

/-- A request environment answering HTTP 200 with an empty JSON object
(used by concrete instantiations). -/
def netEmptyObj : Network :=
  { outcome := NetOutcome.response 200 (Except.ok (Json.obj [])) "",
    headerElapsed := 1, exnElapsed := 1 }

/-- A summary with one success out of three and an 80 ms average (used by
the concrete refutation). -/
def cexSummaryA : ExchangeSummary :=
  { success_rate := 50, avg_response_time := 2/25, min_response_time := 2/25,
    max_response_time := 2/25, total_requests := 3, successful_requests := 1,
    errors := ["Timeout"] }

/-- A fully successful summary with a 120 ms average (used by the concrete
refutation). -/
def cexSummaryB : ExchangeSummary :=
  { success_rate := 100, avg_response_time := 3/25, min_response_time := 3/25,
    max_response_time := 3/25, total_requests := 3, successful_requests := 3,
    errors := [] }

/-- A concrete three-result batch with two successes (response times 1 and
3) used by concrete instantiations. -/
def wres : List TestResult :=
  [{ exchange := "w", success := true, response_time := 1, data_size := 10, error_type := "" },
   { exchange := "w", success := false, response_time := 2, data_size := 0,
     error_type := "Timeout" },
   { exchange := "w", success := true, response_time := 3, data_size := 5, error_type := "" }]

theorem writeSlot_length {α : Type} (tasks : List α) (s : List (Option α)) (i : Nat) :
    (writeSlot tasks s i).length = s.length := by
  unfold writeSlot
  cases tasks.get? i <;> simp

theorem foldl_writeSlot_length {α : Type} (tasks : List α) :
    ∀ (order : List Nat) (s : List (Option α)),
      (order.foldl (writeSlot tasks) s).length = s.length := by
  intro order
  induction order with
  | nil => intro s; rfl
  | cons i os ih => intro s; simp only [List.foldl_cons]; rw [ih, writeSlot_length]

theorem foldl_writeSlot_get_notMem {α : Type} (tasks : List α) :
    ∀ (order : List Nat) (s : List (Option α)) (j : Nat), j ∉ order →
      (order.foldl (writeSlot tasks) s).get? j = s.get? j := by
  intro order
  induction order with
  | nil => intro s j _; rfl
  | cons i os ih =>
      intro s j hj
      have hji : j ≠ i := fun h => hj (h ▸ List.mem_cons_self i os)
      have hjo : j ∉ os := fun h => hj (List.mem_cons_of_mem i h)
      simp only [List.foldl_cons]
      rw [ih _ j hjo]
      unfold writeSlot
      cases tasks.get? i with
      | none => rfl
      | some v => exact List.get?_set_ne _ _ (Ne.symm hji)

theorem foldl_writeSlot_get_mem {α : Type} (tasks : List α) :
    ∀ (order : List Nat) (s : List (Option α)) (j : Nat) (v : α),
      tasks.get? j = some v → j ∈ order → j < s.length →
      (order.foldl (writeSlot tasks) s).get? j = some (some v) := by
  intro order
  induction order with
  | nil => intro s j v _ hmem _; exact absurd hmem (List.not_mem_nil j)
  | cons i os ih =>
      intro s j v hv hmem hlen
      simp only [List.foldl_cons]
      by_cases hos : j ∈ os
      · exact ih _ j v hv hos (by rw [writeSlot_length]; exact hlen)
      · have hji : j = i := by
          rcases List.mem_cons.mp hmem with h | h
          · exact h
          · exact absurd h hos
        subst hji
        rw [foldl_writeSlot_get_notMem tasks os _ j hos]
        unfold writeSlot
        rw [hv]
        exact List.get?_set_eq_of_lt _ hlen

theorem collectSlots_map_some {α : Type} (l : List α) :
    collectSlots (l.map some) = some l := by
  induction l with
  | nil => rfl
  | cons x xs ih => simp [collectSlots, ih]

/-- Filling the slots along any completion order that covers every task
index reproduces the task list itself: `gather` returns exactly one result
per task, in input order. -/
theorem runConcurrent_perm {α : Type} (tasks : List α) (order : List Nat)
    (h : ∀ j, j < tasks.length → j ∈ order) :
    runConcurrent tasks order = some tasks := by
  unfold runConcurrent
  have hslots : order.foldl (writeSlot tasks) (List.replicate tasks.length none)
      = tasks.map some := by
    apply List.ext_get?_iff.mpr
    intro j
    by_cases hj : j < tasks.length
    · obtain ⟨v, hv⟩ : ∃ v, tasks.get? j = some v := by
        cases hget : tasks.get? j with
        | none => exact absurd (List.get?_eq_none.mp hget) (Nat.not_le.mpr hj)
        | some v => exact ⟨v, rfl⟩
      rw [foldl_writeSlot_get_mem tasks order _ j v hv (h j hj)
            (by rw [List.length_replicate]; exact hj)]
      rw [List.get?_map, hv]
      rfl
    · have h1 : (order.foldl (writeSlot tasks) (List.replicate tasks.length none)).get? j
          = none := by
        apply List.get?_eq_none.mpr
        rw [foldl_writeSlot_length, List.length_replicate]
        exact Nat.not_lt.mp hj
      have h2 : (tasks.map some).get? j = none := by
        apply List.get?_eq_none.mpr
        rw [List.length_map]
        exact Nat.not_lt.mp hj
      rw [h1, h2]
  rw [hslots, collectSlots_map_some]

theorem foldl_min_le_init : ∀ (ts : List Rat) (b : Rat), ts.foldl min b ≤ b := by
  intro ts
  induction ts with
  | nil => intro b; exact le_refl b
  | cons t ts ih =>
      intro b
      simp only [List.foldl_cons]
      exact le_trans (ih (min b t)) (min_le_left b t)

theorem foldl_min_le_mem : ∀ (ts : List Rat) (b y : Rat), y ∈ ts → ts.foldl min b ≤ y := by
  intro ts
  induction ts with
  | nil => intro b y hy; exact absurd hy (List.not_mem_nil y)
  | cons t ts ih =>
      intro b y hy
      simp only [List.foldl_cons]
      rcases List.mem_cons.mp hy with h | h
      · subst h; exact le_trans (foldl_min_le_init ts (min b y)) (min_le_right b y)
      · exact ih (min b t) y h

theorem foldl_min_mem : ∀ (ts : List Rat) (b : Rat),
    ts.foldl min b = b ∨ ts.foldl min b ∈ ts := by
  intro ts
  induction ts with
  | nil => intro b; exact Or.inl rfl
  | cons t ts ih =>
      intro b
      simp only [List.foldl_cons]
      rcases ih (min b t) with h | h
      · rcases min_choice b t with hc | hc
        · exact Or.inl (h.trans hc)
        · exact Or.inr (by rw [h, hc]; exact List.mem_cons_self t ts)
      · exact Or.inr (List.mem_cons_of_mem t h)

theorem foldl_max_init_le : ∀ (ts : List Rat) (b : Rat), b ≤ ts.foldl max b := by
  intro ts
  induction ts with
  | nil => intro b; exact le_refl b
  | cons t ts ih =>
      intro b
      simp only [List.foldl_cons]
      exact le_trans (le_max_left b t) (ih (max b t))

theorem foldl_max_mem_le : ∀ (ts : List Rat) (b y : Rat), y ∈ ts → y ≤ ts.foldl max b := by
  intro ts
  induction ts with
  | nil => intro b y hy; exact absurd hy (List.not_mem_nil y)
  | cons t ts ih =>
      intro b y hy
      simp only [List.foldl_cons]
      rcases List.mem_cons.mp hy with h | h
      · subst h; exact le_trans (le_max_right b y) (foldl_max_init_le ts (max b y))
      · exact ih (max b t) y h

theorem foldl_max_mem : ∀ (ts : List Rat) (b : Rat),
    ts.foldl max b = b ∨ ts.foldl max b ∈ ts := by
  intro ts
  induction ts with
  | nil => intro b; exact Or.inl rfl
  | cons t ts ih =>
      intro b
      simp only [List.foldl_cons]
      rcases ih (max b t) with h | h
      · rcases max_choice b t with hc | hc
        · exact Or.inl (h.trans hc)
        · exact Or.inr (by rw [h, hc]; exact List.mem_cons_self t ts)
      · exact Or.inr (List.mem_cons_of_mem t h)

/-- The result of folding `maxStep` is the first element of `b :: xs`
attaining the maximal key: either it is `b` itself and nothing in `xs`
beats it, or it sits in `xs`, strictly beats `b` and everything before it,
and is not beaten by anything after it. -/
theorem maxRun_first {α K : Type} [LinearOrder K] (key : α → K) :
    ∀ (xs : List α) (b : α),
      (xs.foldl (maxStep key) b = b ∧ ∀ y ∈ xs, key y ≤ key b) ∨
      (∃ l1 l2, xs = l1 ++ (xs.foldl (maxStep key) b) :: l2 ∧
        key b < key (xs.foldl (maxStep key) b) ∧
        (∀ y ∈ l1, key y < key (xs.foldl (maxStep key) b)) ∧
        (∀ y ∈ l2, key y ≤ key (xs.foldl (maxStep key) b))) := by
  intro xs
  induction xs with
  | nil => intro b; exact Or.inl ⟨rfl, by intro y hy; exact absurd hy (List.not_mem_nil y)⟩
  | cons y ys ih =>
      intro b
      simp only [List.foldl_cons]
      by_cases hby : key b < key y
      · have hstep : maxStep key b y = y := by unfold maxStep; rw [if_pos hby]
        rw [hstep]
        rcases ih y with ⟨heq, hall⟩ | ⟨l1, l2, hdec, hlt, h1, h2⟩
        · refine Or.inr ⟨[], ys, ?_, ?_, ?_, ?_⟩
          · rw [heq]; rfl
          · rw [heq]; exact hby
          · intro z hz; exact absurd hz (List.not_mem_nil z)
          · rw [heq]; exact hall
        · refine Or.inr ⟨y :: l1, l2, ?_, ?_, ?_, h2⟩
          · rw [List.cons_append, ← hdec]
          · exact lt_trans hby hlt
          · intro z hz
            rcases List.mem_cons.mp hz with h | h
            · subst h; exact hlt
            · exact h1 z h
      · have hstep : maxStep key b y = b := by unfold maxStep; rw [if_neg hby]
        rw [hstep]
        rcases ih b with ⟨heq, hall⟩ | ⟨l1, l2, hdec, hlt, h1, h2⟩
        · refine Or.inl ⟨heq, ?_⟩
          intro z hz
          rcases List.mem_cons.mp hz with h | h
          · subst h; exact le_of_not_lt hby
          · exact hall z h
        · refine Or.inr ⟨y :: l1, l2, ?_, hlt, ?_, h2⟩
          · rw [List.cons_append, ← hdec]
          · intro z hz
            rcases List.mem_cons.mp hz with h | h
            · subst h; exact lt_of_le_of_lt (le_of_not_lt hby) hlt
            · exact h1 z h

theorem find?_decomp {α : Type} (p : α → Bool) :
    ∀ (l1 : List α) (l2 : List α) (r : α), (∀ z ∈ l1, p z = false) → p r = true →
      (l1 ++ r :: l2).find? p = some r := by
  intro l1
  induction l1 with
  | nil => intro l2 r _ hr; simp [List.find?_cons_of_pos _ hr]
  | cons a as ih =>
      intro l2 r h1 hr
      have ha : p a = false := h1 a (List.mem_cons_self a as)
      rw [List.cons_append, List.find?_cons_of_neg _ (by rw [ha]; exact Bool.false_ne_true)]
      exact ih l2 r (fun z hz => h1 z (List.mem_cons_of_mem a hz)) hr

/-- Python `max(l, key=f)` returns exactly the first element of `l` whose
key is greater than or equal to the key of every element of `l`. -/
theorem pyMaxBy_eq_find {α K : Type} [LinearOrder K] (key : α → K) (l : List α) :
    pyMaxBy key l = l.find? (fun x => l.all (fun y => decide (key y ≤ key x))) := by
  cases l with
  | nil => rfl
  | cons x xs =>
      set r := xs.foldl (maxStep key) x with hr
      have hmax := maxRun_first key xs x
      rw [← hr] at hmax
      obtain ⟨l1, l2, hdec, h1, h2⟩ :
          ∃ l1 l2, x :: xs = l1 ++ r :: l2 ∧
            (∀ y ∈ l1, key y < key r) ∧
            (∀ y ∈ x :: xs, key y ≤ key r) := by
        rcases hmax with ⟨heq, hall⟩ | ⟨l1, l2, hdec, hlt, ha, hb⟩
        · refine ⟨[], xs, by rw [heq]; rfl, ?_, ?_⟩
          · intro z hz; exact absurd hz (List.not_mem_nil z)
          · intro y hy
            rcases List.mem_cons.mp hy with h | h
            · subst h; rw [heq]
            · rw [heq]; exact hall y h
        · refine ⟨x :: l1, l2, by rw [List.cons_append, ← hdec], ?_, ?_⟩
          · intro z hz
            rcases List.mem_cons.mp hz with h | h
            · subst h; exact hlt
            · exact ha z h
          · intro y hy
            rcases List.mem_cons.mp hy with h | h
            · subst h; exact le_of_lt hlt
            · rw [hdec] at h
              rcases List.mem_append.mp h with h | h
              · exact le_of_lt (ha y h)
              · rcases List.mem_cons.mp h with h | h
                · subst h; exact le_refl _
                · exact hb y h
      have hrl : r ∈ x :: xs := by
        rw [hdec]; exact List.mem_append.mpr (Or.inr (List.mem_cons_self r l2))
      have hfalse : ∀ z ∈ l1,
          (x :: xs).all (fun y => decide (key y ≤ key z)) = false := by
        intro z hz
        have hne : ¬ ((x :: xs).all (fun y => decide (key y ≤ key z)) = true) := by
          rw [List.all_eq_true]
          intro hforall
          have hc := hforall r hrl
          rw [decide_eq_true_eq] at hc
          exact absurd hc (not_le.mpr (h1 z hz))
        exact (Bool.not_eq_true _).mp hne
      have htrue : (x :: xs).all (fun y => decide (key y ≤ key r)) = true := by
        rw [List.all_eq_true]
        intro y hy
        rw [decide_eq_true_eq]
        exact h2 y hy
      have hfind := find?_decomp
        (fun z => (x :: xs).all (fun y => decide (key y ≤ key z))) l1 l2 r hfalse htrue
      rw [← hdec] at hfind
      simp only [pyMaxBy]
      rw [← hr, hfind]

/-- C1 (amended): for every exchange name absent from the configuration
table, and for every configured exchange with an endpoint name present in
its endpoint table, `test_single_endpoint` returns a `TestResult` and never
raises; every error condition (missing exchange configuration, non-200
status, JSON parse failure, timeout, transport/runtime failure) is
downgraded to a returned failed result. -/
theorem C1_no_raise (configs : List (String × ExchangeConfig)) (exchange endpoint : String)
    (net : Network)
    (h : lookupKey configs exchange = none ∨
      ∃ cfg, lookupKey configs exchange = some cfg ∧
        (lookupKey cfg.endpoints endpoint).isSome = true) :
    ∃ r, test_single_endpoint configs exchange endpoint net = Except.ok r ∧
      ((lookupKey configs exchange = none ∨ net.outcome.isFailureCase = true) →
        r.success = false) := by
  cases hlc : lookupKey configs exchange with
  | none =>
      refine ⟨{ exchange := exchange, success := false, response_time := 0,
                data_size := 0, error_type := "配置不存在" }, ?_, fun _ => rfl⟩
      simp only [test_single_endpoint, hlc]
  | some cfg =>
      rcases h with h | ⟨cfg2, hcfg2, hend⟩
      · rw [hlc] at h; exact absurd h (by simp)
      · rw [hlc] at hcfg2
        injection hcfg2 with hcfg2
        subst hcfg2
        cases hle : lookupKey cfg.endpoints endpoint with
        | none => rw [hle] at hend; simp at hend
        | some path =>
            cases hout : net.outcome with
            | response status body errorText =>
                by_cases hst : (status == 200) = true
                · cases body with
                  | ok data =>
                      refine ⟨{ exchange := exchange,
                                success := validate_data exchange data,
                                response_time := net.headerElapsed,
                                data_size := (pyStr data).length,
                                error_type := if validate_data exchange data
                                  then "" else "數據不完整" }, ?_, ?_⟩
                      · simp only [test_single_endpoint, hlc, hle, hout]
                        rw [if_pos hst]
                      · intro hfail
                        rcases hfail with hnone | hcase
                        · exact absurd hnone (by simp)
                        · have hs : status = 200 := beq_iff_eq.mp hst
                          subst hs
                          simp [NetOutcome.isFailureCase] at hcase
                  | error e =>
                      refine ⟨{ exchange := exchange, success := false,
                                response_time := net.exnElapsed, data_size := 0,
                                error_type := e.1 ++ ": " ++ e.2.take 50 }, ?_, fun _ => rfl⟩
                      simp only [test_single_endpoint, hlc, hle, hout]
                      rw [if_pos hst]
                · refine ⟨{ exchange := exchange, success := false,
                            response_time := net.headerElapsed, data_size := 0,
                            error_type := "HTTP " ++ toString status ++ ": " ++
                              errorText.take 50 }, ?_, fun _ => rfl⟩
                  simp only [test_single_endpoint, hlc, hle, hout]
                  rw [if_neg hst]
            | timeout =>
                refine ⟨{ exchange := exchange, success := false, response_time := 15,
                          data_size := 0, error_type := "Timeout" }, ?_, fun _ => rfl⟩
                simp only [test_single_endpoint, hlc, hle, hout]
            | raise ename emsg =>
                refine ⟨{ exchange := exchange, success := false,
                          response_time := net.exnElapsed, data_size := 0,
                          error_type := ename ++ ": " ++ emsg.take 50 }, ?_, fun _ => rfl⟩
                simp only [test_single_endpoint, hlc, hle, hout]

/-- C1 counterexample: with the script's own configuration table, invoking
the probe for the configured exchange `binance` with the endpoint name
`depth` (absent from its endpoint table) raises `KeyError` to the caller —
the lookup on line 63 happens before the `try` block. -/
theorem C1_counterexample :
    test_single_endpoint EXCHANGE_CONFIGS "binance" "depth" netTimeout =
      Except.error "KeyError" := rfl

/-- C1 witness: a concrete invocation covered by the amended claim. -/
theorem C1_witness :
    (test_single_endpoint EXCHANGE_CONFIGS "binance" "ticker" netTimeout).map
      (fun r => r.success) = Except.ok false := by
  obtain ⟨r, hr, himp⟩ := C1_no_raise EXCHANGE_CONFIGS "binance" "ticker" netTimeout
    (Or.inr ⟨{ base_url := "https://api.binance.com",
               endpoints := [("ticker", "/api/v3/ticker/24hr")],
               params := [("symbol", "BTCUSDT")] }, rfl, rfl⟩)
  rw [hr]
  simp only [Except.map]
  rw [himp (Or.inr rfl)]

/-- On the domain where the probe cannot raise (the exchange is missing
from the table, or the endpoint name is present in its endpoint table),
`test_single_endpoint` always returns a `TestResult`. -/
theorem test_single_endpoint_returns (configs : List (String × ExchangeConfig))
    (exchange endpoint : String) (net : Network)
    (hdom : lookupKey configs exchange = none ∨
      ∃ cfg, lookupKey configs exchange = some cfg ∧
        (lookupKey cfg.endpoints endpoint).isSome = true) :
    ∃ r, test_single_endpoint configs exchange endpoint net = Except.ok r := by
  cases hres : test_single_endpoint configs exchange endpoint net with
  | ok r => exact ⟨r, rfl⟩
  | error e =>
      exfalso
      rcases hdom with h | ⟨cfg, hc, hend⟩
      · simp [test_single_endpoint, h] at hres
      · obtain ⟨path, hp⟩ := Option.isSome_iff_exists.mp hend
        cases ho : net.outcome with
        | response status body errText =>
            by_cases hst : (status == 200) = true
            · cases body with
              | ok data => simp [test_single_endpoint, hc, hp, ho, hst] at hres
              | error e2 => simp [test_single_endpoint, hc, hp, ho, hst] at hres
            · simp [test_single_endpoint, hc, hp, ho, hst] at hres
        | timeout => simp [test_single_endpoint, hc, hp, ho] at hres
        | raise a b => simp [test_single_endpoint, hc, hp, ho] at hres

/-- When no task raised, the gather await returns the unwrapped results,
one per task, in the same order. -/
theorem gatherPropagate_of_all_ok :
    ∀ (es : List (Except String TestResult)),
      (∀ e ∈ es, ∃ r, e = Except.ok r) →
      ∃ ts : List TestResult, gatherPropagate es = Except.ok ts ∧
        ts.map Except.ok = es := by
  intro es
  induction es with
  | nil => intro _; exact ⟨[], rfl, rfl⟩
  | cons e es ih =>
      intro h
      obtain ⟨r, hr⟩ := h e (List.mem_cons_self e es)
      subst hr
      obtain ⟨ts, h1, h2⟩ := ih (fun x hx => h x (List.mem_cons_of_mem _ hx))
      refine ⟨r :: ts, ?_, ?_⟩
      · simp [gatherPropagate, h1, Except.map]
      · simp [h2]

/-- C2 (amended): for every number `n` of probe tasks none of which raises
(the exchange is unconfigured, or the endpoint name is present in its
endpoint table) and every completion order (a permutation of the task
indices — the scheduler may finish the probes in any order), the gather
returns exactly `n` results and the `i`-th result is the result of the
`i`-th task: the output preserves the input order of the tasks.  When a
task raises, gather (default `return_exceptions=False`) propagates the
exception instead and no results are returned. -/
theorem C2_gather_order (configs : List (String × ExchangeConfig))
    (exchange endpoint : String) (nets : Nat → Network) (order : List Nat) (n : Nat)
    (h : order.Perm (List.range n))
    (hdom : lookupKey configs exchange = none ∨
      ∃ cfg, lookupKey configs exchange = some cfg ∧
        (lookupKey cfg.endpoints endpoint).isSome = true) :
    ∃ rs : List TestResult,
      run_concurrent_tests configs exchange endpoint nets order n =
        some (Except.ok rs) ∧
      rs.length = n ∧
      ∀ i, i < n → (rs.get? i).map Except.ok =
        some (test_single_endpoint configs exchange endpoint (nets i)) := by
  have hrun : runConcurrent
      ((List.range n).map
        (fun i => test_single_endpoint configs exchange endpoint (nets i))) order =
      some ((List.range n).map
        (fun i => test_single_endpoint configs exchange endpoint (nets i))) := by
    apply runConcurrent_perm
    intro j hj
    rw [List.length_map, List.length_range] at hj
    exact h.mem_iff.mpr (List.mem_range.mpr hj)
  have hall : ∀ e ∈ (List.range n).map
      (fun i => test_single_endpoint configs exchange endpoint (nets i)),
      ∃ r, e = Except.ok r := by
    intro e he
    rw [List.mem_map] at he
    obtain ⟨i, _, rfl⟩ := he
    obtain ⟨r, hr⟩ := test_single_endpoint_returns configs exchange endpoint (nets i) hdom
    exact ⟨r, hr⟩
  obtain ⟨ts, hts, hmap⟩ := gatherPropagate_of_all_ok _ hall
  refine ⟨ts, ?_, ?_, ?_⟩
  · unfold run_concurrent_tests
    rw [hrun, Option.map_some', hts]
  · have := congrArg List.length hmap
    rw [List.length_map, List.length_map, List.length_range] at this
    exact this
  · intro i hi
    rw [← List.get?_map, hmap, List.get?_map, List.get?_range hi]
    rfl

/-- C2 counterexample: for the configured exchange `binance` with the
unknown endpoint name `depth`, every probe task raises `KeyError` before
its first await, and `asyncio.gather` (default `return_exceptions=False`)
propagates the exception to the caller: the run returns zero results
instead of N = 3. -/
theorem C2_counterexample :
    run_concurrent_tests EXCHANGE_CONFIGS "binance" "depth" (fun _ => netTimeout)
      [0, 1, 2] 3 = some (Except.error "KeyError") := rfl

/-- C2 witness: three non-raising tasks completing in the order 2, 0, 1
still yield the three results in input order. -/
theorem C2_witness :
    ∃ rs : List TestResult,
      run_concurrent_tests EXCHANGE_CONFIGS "okx" "ticker" (fun _ => netTimeout)
        [2, 0, 1] 3 = some (Except.ok rs) ∧
      rs.length = 3 ∧
      ∀ i, i < 3 → (rs.get? i).map Except.ok =
        some (test_single_endpoint EXCHANGE_CONFIGS "okx" "ticker"
          ((fun _ => netTimeout) i)) :=
  C2_gather_order EXCHANGE_CONFIGS "okx" "ticker" (fun _ => netTimeout) [2, 0, 1] 3
    (by decide)
    (Or.inr ⟨{ base_url := "https://www.okx.com/api/v5",
               endpoints := [("ticker", "/market/ticker")],
               params := [("instId", "BTC-USDT")] }, rfl, rfl⟩)

/-- C6 (amended): in a run whose tasks do not raise (the endpoint name is
configured, as in the `"ticker"` calls of `test_all_exchanges`), each
exchange receives exactly `num_requests` probe attempts
(`test_all_exchanges` passes 3) with no retries: for every completion
order the run yields one result per attempt — the returned results, each
wrapped as the return value of its attempt, are exactly the `num_requests`
attempt outcomes. -/
theorem C6_attempt_count (configs : List (String × ExchangeConfig))
    (exchange endpoint : String) (nets : Nat → Network) (order : List Nat)
    (num_requests : Nat) (h : order.Perm (List.range num_requests))
    (hdom : lookupKey configs exchange = none ∨
      ∃ cfg, lookupKey configs exchange = some cfg ∧
        (lookupKey cfg.endpoints endpoint).isSome = true) :
    ∃ rs : List TestResult,
      run_concurrent_tests configs exchange endpoint nets order num_requests =
        some (Except.ok rs) ∧
      rs.map Except.ok = (List.range num_requests).map
        (fun i => test_single_endpoint configs exchange endpoint (nets i)) := by
  have hrun : runConcurrent
      ((List.range num_requests).map
        (fun i => test_single_endpoint configs exchange endpoint (nets i))) order =
      some ((List.range num_requests).map
        (fun i => test_single_endpoint configs exchange endpoint (nets i))) := by
    apply runConcurrent_perm
    intro j hj
    rw [List.length_map, List.length_range] at hj
    exact h.mem_iff.mpr (List.mem_range.mpr hj)
  have hall : ∀ e ∈ (List.range num_requests).map
      (fun i => test_single_endpoint configs exchange endpoint (nets i)),
      ∃ r, e = Except.ok r := by
    intro e he
    rw [List.mem_map] at he
    obtain ⟨i, _, rfl⟩ := he
    obtain ⟨r, hr⟩ := test_single_endpoint_returns configs exchange endpoint (nets i) hdom
    exact ⟨r, hr⟩
  obtain ⟨ts, hts, hmap⟩ := gatherPropagate_of_all_ok _ hall
  refine ⟨ts, ?_, hmap⟩
  unfold run_concurrent_tests
  rw [hrun, Option.map_some', hts]

/-- C6 counterexample: with the script's own configuration table and the
3-request call `test_all_exchanges` makes (`run_concurrent_tests(exchange,
endpoint, 3)`), the target `binance` receives three probe attempts and
yields a list of three results in one run, not one. -/
theorem C6_counterexample :
    (run_concurrent_tests EXCHANGE_CONFIGS "binance" "ticker" (fun _ => netTimeout)
      [0, 1, 2] 3).map (fun g => g.map List.length) = some (Except.ok 3) := rfl

/-- C6 witness: a concrete 3-attempt run covered by the amended claim. -/
theorem C6_witness :
    ∃ rs : List TestResult,
      run_concurrent_tests EXCHANGE_CONFIGS "binance" "ticker" (fun _ => netTimeout)
        [1, 2, 0] 3 = some (Except.ok rs) ∧
      rs.map Except.ok = (List.range 3).map
        (fun i => test_single_endpoint EXCHANGE_CONFIGS "binance" "ticker"
          ((fun _ => netTimeout) i)) :=
  C6_attempt_count EXCHANGE_CONFIGS "binance" "ticker" (fun _ => netTimeout) [1, 2, 0] 3
    (by decide)
    (Or.inr ⟨{ base_url := "https://api.binance.com",
               endpoints := [("ticker", "/api/v3/ticker/24hr")],
               params := [("symbol", "BTCUSDT")] }, rfl, rfl⟩)

/-- C5: for every configured probe whose request times out, the result is a
failure with error exactly "Timeout" and a response time equal to the
configured session timeout bound (15 seconds, line 43; the literal on line
100 matches it). -/
theorem C5_timeout (configs : List (String × ExchangeConfig)) (cfg : ExchangeConfig)
    (exchange endpoint path : String) (net : Network)
    (hc : lookupKey configs exchange = some cfg)
    (he : lookupKey cfg.endpoints endpoint = some path)
    (hnet : net.outcome = NetOutcome.timeout) :
    test_single_endpoint configs exchange endpoint net =
      Except.ok { exchange := exchange, success := false,
                  response_time := sessionTimeout, data_size := 0,
                  error_type := "Timeout" } := by
  simp only [test_single_endpoint, hc, he, hnet]
  rfl

/-- C5 witness: a concrete timed-out probe of the configured huobi target. -/
theorem C5_witness :
    test_single_endpoint EXCHANGE_CONFIGS "huobi" "ticker" netTimeout =
      Except.ok { exchange := "huobi", success := false,
                  response_time := sessionTimeout, data_size := 0,
                  error_type := "Timeout" } :=
  C5_timeout EXCHANGE_CONFIGS
    { base_url := "https://api.huobi.pro",
      endpoints := [("ticker", "/market/detail/merged")],
      params := [("symbol", "btcusdt")] }
    "huobi" "ticker" "/market/detail/merged" netTimeout rfl rfl rfl

/-- C9: for every configured probe that receives a response with a non-200
status, the result is a failure whose error string contains that status
code. -/
theorem C9_http_error (configs : List (String × ExchangeConfig)) (cfg : ExchangeConfig)
    (exchange endpoint path : String) (net : Network) (status : Nat)
    (body : Except (String × String) Json) (errText : String)
    (hc : lookupKey configs exchange = some cfg)
    (he : lookupKey cfg.endpoints endpoint = some path)
    (hnet : net.outcome = NetOutcome.response status body errText)
    (hstatus : status ≠ 200) :
    ∃ r, test_single_endpoint configs exchange endpoint net = Except.ok r ∧
      r.success = false ∧ ∃ s1 s2, r.error_type = s1 ++ toString status ++ s2 := by
  refine ⟨{ exchange := exchange, success := false,
            response_time := net.headerElapsed, data_size := 0,
            error_type := "HTTP " ++ toString status ++ ": " ++ errText.take 50 },
          ?_, rfl, "HTTP ", ": " ++ errText.take 50, ?_⟩
  · simp only [test_single_endpoint, hc, he, hnet]
    rw [if_neg (by simpa using hstatus)]
  · rw [String.append_assoc]

/-- C9 witness: a concrete HTTP 500 response on the configured okx target
yields a failure whose error contains "500". -/
theorem C9_witness :
    ∃ r, test_single_endpoint EXCHANGE_CONFIGS "okx" "ticker" net500 = Except.ok r ∧
      r.success = false ∧ ∃ s1 s2, r.error_type = s1 ++ toString 500 ++ s2 :=
  C9_http_error EXCHANGE_CONFIGS
    { base_url := "https://www.okx.com/api/v5",
      endpoints := [("ticker", "/market/ticker")],
      params := [("instId", "BTC-USDT")] }
    "okx" "ticker" "/market/ticker" net500 500
    (Except.error ("ContentTypeError", "")) "Internal Server Error"
    rfl rfl rfl (by decide)

/-- For an exchange other than the three special-cased ones, a value that
is neither a dict nor a list validates as `True` (the final `return True`
of `validate_data`). -/
theorem validate_data_scalar (exchange : String) (data : Json)
    (h1 : exchange ≠ "binance") (h2 : exchange ≠ "bitget") (h3 : exchange ≠ "pionex")
    (hscalar : data.isContainer = false) :
    validate_data exchange data = true := by
  unfold validate_data
  rw [if_neg (by simpa using h1), if_neg (by simpa using h2), if_neg (by simpa using h3)]
  cases data with
  | obj fields => simp [Json.isContainer] at hscalar
  | arr elems => simp [Json.isContainer] at hscalar
  | str s => rfl
  | num n => rfl
  | bool b => rfl
  | null => rfl

/-- C10: for every exchange other than binance, bitget and pionex,
`validate_data` accepts any parsed value that is neither a dict nor a list,
so a configured probe receiving HTTP 200 with such a scalar body is marked
success. -/
theorem C10_scalar_success (configs : List (String × ExchangeConfig)) (cfg : ExchangeConfig)
    (exchange endpoint path : String) (net : Network) (data : Json) (errText : String)
    (h1 : exchange ≠ "binance") (h2 : exchange ≠ "bitget") (h3 : exchange ≠ "pionex")
    (hscalar : data.isContainer = false)
    (hc : lookupKey configs exchange = some cfg)
    (he : lookupKey cfg.endpoints endpoint = some path)
    (hnet : net.outcome = NetOutcome.response 200 (Except.ok data) errText) :
    validate_data exchange data = true ∧
    ∃ r, test_single_endpoint configs exchange endpoint net = Except.ok r ∧
      r.success = true := by
  have hval := validate_data_scalar exchange data h1 h2 h3 hscalar
  refine ⟨hval, { exchange := exchange, success := validate_data exchange data,
                  response_time := net.headerElapsed,
                  data_size := (pyStr data).length,
                  error_type := if validate_data exchange data
                    then "" else "數據不完整" }, ?_, hval⟩
  simp only [test_single_endpoint, hc, he, hnet]
  rw [if_pos (show ((200 : Nat) == 200) = true from rfl)]

/-- C10 witness: the configured kucoin target with a 200 scalar body is
marked success. -/
theorem C10_witness :
    validate_data "kucoin" (Json.str "hello") = true ∧
    ∃ r, test_single_endpoint EXCHANGE_CONFIGS "kucoin" "ticker" netScalar = Except.ok r ∧
      r.success = true :=
  C10_scalar_success EXCHANGE_CONFIGS
    { base_url := "https://api.kucoin.com",
      endpoints := [("ticker", "/api/v1/market/orderbook/level1")],
      params := [("symbol", "BTC-USDT")] }
    "kucoin" "ticker" "/api/v1/market/orderbook/level1" netScalar (Json.str "hello") ""
    (by decide) (by decide) (by decide) rfl rfl rfl rfl

/-- For every exchange (including the three special-cased ones), an empty
dict or empty list fails validation. -/
theorem validate_data_empty (exchange : String) (data : Json)
    (hdata : data = Json.obj [] ∨ data = Json.arr []) :
    validate_data exchange data = false := by
  rcases hdata with h | h <;> subst h <;>
    · unfold validate_data
      split_ifs <;> simp [Json.isObj, Json.hasKey, Json.get?, List.find?]

/-- For an exchange other than the three special-cased ones, a non-empty
dict or non-empty list validates as `True`. -/
theorem validate_data_nonempty (exchange : String) (data : Json)
    (h1 : exchange ≠ "binance") (h2 : exchange ≠ "bitget") (h3 : exchange ≠ "pionex")
    (hdata : (∃ f fs, data = Json.obj (f :: fs)) ∨ (∃ e es, data = Json.arr (e :: es))) :
    validate_data exchange data = true := by
  unfold validate_data
  rw [if_neg (by simpa using h1), if_neg (by simpa using h2), if_neg (by simpa using h3)]
  rcases hdata with ⟨f, fs, h⟩ | ⟨e, es, h⟩ <;> subst h <;> simp

/-- C4 (amended): for every configured probe receiving HTTP 200 with a
parsed JSON body, a non-empty object or non-empty array is marked success
when the exchange is not one of binance, bitget, pionex (whose validation
instead checks exchange-specific fields), and an empty object or empty
array is marked failure with the invalid-data classification
("數據不完整") for every exchange. -/
theorem C4_validation (configs : List (String × ExchangeConfig)) (cfg : ExchangeConfig)
    (exchange endpoint path : String) (net : Network) (data : Json) (errText : String)
    (hc : lookupKey configs exchange = some cfg)
    (he : lookupKey cfg.endpoints endpoint = some path)
    (hnet : net.outcome = NetOutcome.response 200 (Except.ok data) errText) :
    ∃ r, test_single_endpoint configs exchange endpoint net = Except.ok r ∧
      ((exchange ≠ "binance" ∧ exchange ≠ "bitget" ∧ exchange ≠ "pionex") →
        ((∃ f fs, data = Json.obj (f :: fs)) ∨ (∃ e es, data = Json.arr (e :: es))) →
        r.success = true) ∧
      ((data = Json.obj [] ∨ data = Json.arr []) →
        r.success = false ∧ r.error_type = "數據不完整") := by
  refine ⟨{ exchange := exchange, success := validate_data exchange data,
            response_time := net.headerElapsed,
            data_size := (pyStr data).length,
            error_type := if validate_data exchange data
              then "" else "數據不完整" }, ?_, ?_, ?_⟩
  · simp only [test_single_endpoint, hc, he, hnet]
    rw [if_pos (show ((200 : Nat) == 200) = true from rfl)]
  · intro hspecial hdata
    exact validate_data_nonempty exchange data hspecial.1 hspecial.2.1 hspecial.2.2 hdata
  · intro hdata
    have hval := validate_data_empty exchange data hdata
    constructor
    · exact hval
    · show (if validate_data exchange data then "" else "數據不完整") = "數據不完整"
      rw [hval]
      rfl

/-- C4 counterexample: the configured binance target answering HTTP 200
with the non-empty JSON object containing only the key "foo" is marked
failure, not success — its validation requires the fields "symbol" and
"lastPrice". -/
theorem C4_counterexample :
    (test_single_endpoint EXCHANGE_CONFIGS "binance" "ticker" netFooObj).map
      (fun r => r.success) = Except.ok false := rfl

/-- C4 witness: the configured gateio target: a non-empty object is marked
success, and an empty object is marked failure with the invalid-data
classification. -/
theorem C4_witness :
    ((test_single_endpoint EXCHANGE_CONFIGS "gateio" "ticker" netFooObj).map
      (fun r => r.success) = Except.ok true) ∧
    ((test_single_endpoint EXCHANGE_CONFIGS "gateio" "ticker" netEmptyObj).map
      (fun r => (r.success, r.error_type)) = Except.ok (false, "數據不完整")) := by
  constructor
  · obtain ⟨r, hr, hok, _⟩ := C4_validation EXCHANGE_CONFIGS
      { base_url := "https://api.gateio.ws/api/v4",
        endpoints := [("ticker", "/spot/tickers")],
        params := [("currency_pair", "BTC_USDT")] }
      "gateio" "ticker" "/spot/tickers" netFooObj (Json.obj [("foo", Json.num 1)]) ""
      rfl rfl rfl
    rw [hr]
    simp only [Except.map]
    rw [hok ⟨by decide, by decide, by decide⟩ (Or.inl ⟨("foo", Json.num 1), [], rfl⟩)]
  · obtain ⟨r, hr, _, hbad⟩ := C4_validation EXCHANGE_CONFIGS
      { base_url := "https://api.gateio.ws/api/v4",
        endpoints := [("ticker", "/spot/tickers")],
        params := [("currency_pair", "BTC_USDT")] }
      "gateio" "ticker" "/spot/tickers" netEmptyObj (Json.obj []) ""
      rfl rfl rfl
    rw [hr]
    simp only [Except.map]
    rw [(hbad (Or.inl rfl)).1, (hbad (Or.inl rfl)).2]

/-- C3 (amended): the recommendation is the first entry with a positive
success rate whose pair (success_rate, -avg_response_time) is
lexicographically maximal — highest success rate first, then lowest average
response time, ties broken by input order; when no entry has a positive
success rate there is no recommendation and the report ends with the
all-failed notice instead. -/
theorem C3_recommendation (summaries : List (String × ExchangeSummary)) :
    generate_recommendation summaries = recommendAmended summaries ∧
    (generate_recommendation summaries = none →
      reportTail summaries = "⚠️ 所有交易所測試均失敗，請檢查網絡或API配置") := by
  constructor
  · simp only [generate_recommendation, recommendAmended]
    exact pyMaxBy_eq_find recKey _
  · intro h
    unfold reportTail
    rw [h]

/-- C3 counterexample: over two summaries that both contain successes, the
code recommends exB (higher success rate, 120 ms average) even though exA
(80 ms average) is the successful entry with minimum response time, so the
spec's minimum-latency rule does not describe the code. -/
theorem C3_counterexample :
    (generate_recommendation [("exA", cexSummaryA), ("exB", cexSummaryB)]).map Prod.fst
        = some "exB" ∧
    0 < cexSummaryA.success_rate ∧
    cexSummaryA.avg_response_time < cexSummaryB.avg_response_time := by
  refine ⟨rfl, by norm_num [cexSummaryA], by norm_num [cexSummaryA, cexSummaryB]⟩

/-- C3 witness: with no summaries at all, there is no recommendation and
the report ends with the all-failed notice. -/
theorem C3_witness :
    reportTail [] = "⚠️ 所有交易所測試均失敗，請檢查網絡或API配置" :=
  (C3_recommendation []).2 rfl

/-- C7: for every non-empty result list, the computed success rate is
successes / total × 100 and lies in [0, 100]. -/
theorem C7_success_rate (results : List TestResult) (h : results ≠ []) :
    (computeSummary results).success_rate =
      ((results.filter (fun r => r.success)).length : Rat) / (results.length : Rat) * 100 ∧
    0 ≤ (computeSummary results).success_rate ∧
    (computeSummary results).success_rate ≤ 100 := by
  have hrate : (computeSummary results).success_rate =
      ((results.filter (fun r => r.success)).length : Rat) / (results.length : Rat) * 100 := rfl
  refine ⟨hrate, ?_, ?_⟩
  · rw [hrate]
    positivity
  · rw [hrate]
    have hn : 0 < (results.length : Rat) := by
      exact_mod_cast List.length_pos.mpr h
    have hc : ((results.filter (fun r => r.success)).length : Rat) ≤ (results.length : Rat) := by
      exact_mod_cast List.length_filter_le _ _
    calc ((results.filter (fun r => r.success)).length : Rat) / (results.length : Rat) * 100
        ≤ 1 * 100 :=
          mul_le_mul_of_nonneg_right ((div_le_one hn).mpr hc) (by norm_num)
      _ = 100 := by norm_num

/-- C7 witness: the success rate of the concrete batch is 2/3 × 100 and
lies in [0, 100]. -/
theorem C7_witness :
    (computeSummary wres).success_rate =
      ((wres.filter (fun r => r.success)).length : Rat) / (wres.length : Rat) * 100 ∧
    0 ≤ (computeSummary wres).success_rate ∧
    (computeSummary wres).success_rate ≤ 100 :=
  C7_success_rate wres (by decide)

/-- C8: the latency statistics are computed only over the successful
results: with no successes all three are zero; otherwise the average times
the count equals the sum of the successful response times, and the
reported minimum and maximum are attained by, and bound, exactly those
times. -/
theorem C8_latency_stats (results : List TestResult) :
    ((results.filter (fun r => r.success)).map (fun r => r.response_time) = [] →
      (computeSummary results).avg_response_time = 0 ∧
      (computeSummary results).min_response_time = 0 ∧
      (computeSummary results).max_response_time = 0) ∧
    (∀ t ts, (results.filter (fun r => r.success)).map (fun r => r.response_time) = t :: ts →
      (computeSummary results).avg_response_time * ((t :: ts).length : Rat) = (t :: ts).sum ∧
      ((computeSummary results).min_response_time ∈ t :: ts ∧
        ∀ y ∈ t :: ts, (computeSummary results).min_response_time ≤ y) ∧
      ((computeSummary results).max_response_time ∈ t :: ts ∧
        ∀ y ∈ t :: ts, y ≤ (computeSummary results).max_response_time)) := by
  constructor
  · intro h
    refine ⟨?_, ?_, ?_⟩
    · simp only [computeSummary]; rw [h]; rfl
    · simp only [computeSummary]; rw [h]; rfl
    · simp only [computeSummary]; rw [h]; rfl
  · intro t ts h
    have havg : (computeSummary results).avg_response_time =
        (t :: ts).sum / ((t :: ts).length : Rat) := by
      simp only [computeSummary]; rw [h]; rfl
    have hmin : (computeSummary results).min_response_time = ts.foldl min t := by
      simp only [computeSummary]; rw [h]; rfl
    have hmax : (computeSummary results).max_response_time = ts.foldl max t := by
      simp only [computeSummary]; rw [h]; rfl
    refine ⟨?_, ⟨?_, ?_⟩, ⟨?_, ?_⟩⟩
    · rw [havg]
      have hlen : (((t :: ts).length : Nat) : Rat) ≠ 0 := by
        rw [List.length_cons]
        exact_mod_cast Nat.succ_ne_zero ts.length
      exact div_mul_cancel₀ _ hlen
    · rw [hmin]
      rcases foldl_min_mem ts t with h1 | h1
      · rw [h1]; exact List.mem_cons_self t ts
      · exact List.mem_cons_of_mem t h1
    · intro y hy
      rw [hmin]
      rcases List.mem_cons.mp hy with hh | hh
      · subst hh; exact foldl_min_le_init ts y
      · exact foldl_min_le_mem ts t y hh
    · rw [hmax]
      rcases foldl_max_mem ts t with h1 | h1
      · rw [h1]; exact List.mem_cons_self t ts
      · exact List.mem_cons_of_mem t h1
    · intro y hy
      rw [hmax]
      rcases List.mem_cons.mp hy with hh | hh
      · subst hh; exact foldl_max_init_le ts y
      · exact foldl_max_mem_le ts t y hh

/-- C8 witness: on the concrete batch (successful times 1 and 3), the
average satisfies avg × 2 = 4 and the minimum and maximum are attained
among the successful times. -/
theorem C8_witness :
    ((computeSummary wres).avg_response_time * (((1 : Rat) :: [3]).length : Rat)
        = ((1 : Rat) :: [3]).sum) ∧
    (((computeSummary wres).min_response_time ∈ (1 : Rat) :: [3]) ∧
      ∀ y ∈ (1 : Rat) :: [3], (computeSummary wres).min_response_time ≤ y) ∧
    (((computeSummary wres).max_response_time ∈ (1 : Rat) :: [3]) ∧
      ∀ y ∈ (1 : Rat) :: [3], y ≤ (computeSummary wres).max_response_time) :=
  (C8_latency_stats wres).2 1 [3] (by decide)
